import Mathlib

/-!
MyChain: storage keys, domain records, parameter and genesis validation

A shallow embedding of `x/mychain/types/keys.go`, `x/mychain/types/types.go` and the
`InitChainer` method of `app/app.go`.

* Go `byte` is `Fin 256`; a `[]byte` is a `List Byte`; a Go `string` is its byte sequence.
* Go `int64` and `int` values are integers (`Int`); `IsInt64` is the `int64` range.
* A call that may panic returns `Option` (`none` is the panic).
* `time.Now()` reads an explicit `Clock`, which is threaded through the constructors.
* The cosmos-sdk value types `sdk.Int`, `sdk.Coin`, `sdk.Coins` and `sdk.Dec` are modelled
  by their mathematical content, restricted to initialised (non-nil) values.
-/

namespace MyChain

/-! ## Go primitives -/

/-- A Go `byte`. -/
abbrev Byte := Fin 256

/-- The Go conversion `byte(x)` of an integer: truncation to the low eight bits. -/
def byte (x : Int) : Byte := ⟨(x % 256).toNat, by omega⟩

/-- The range of a Go `int64`. -/
def IsInt64 (x : Int) : Prop := -2 ^ 63 ≤ x ∧ x < 2 ^ 63

instance instDecidableIsInt64 (x : Int) : Decidable (IsInt64 x) := by
  unfold IsInt64; infer_instance

/-- The Go conversion `uint64(x)` of an `int64`: the value modulo `2^64`. -/
def uint64 (x : Int) : Nat := (x % 2 ^ 64).toNat

/-- A Go `string`: an immutable sequence of bytes. -/
structure GoString where
  data : List Byte
deriving DecidableEq

/-- The Go conversion `[]byte(s)`. -/
def bytesOf (s : GoString) : List Byte := s.data

/-- The Go builtin `len(s)` on a string. -/
def GoString.len (s : GoString) : Nat := s.data.length

/-- A Go string literal: the UTF-8 bytes of the source text. -/
def lit (s : String) : GoString :=
  ⟨(s.data.flatMap String.utf8EncodeChar).map (fun b => b.val)⟩

/-- The Go builtin `append(s, t...)`, as a value. -/
def goAppend (s t : List Byte) : List Byte := s ++ t

/-- The Go builtin `make([]byte, n)`: `n` zero bytes. -/
def makeBytes (n : Nat) : List Byte := List.replicate n 0

/-- An instant of the wall clock, in nanoseconds since the Unix epoch. -/
abbrev Time := Int

/-- The wall clock as seen by one run: the successive readings of `time.Now()`. -/
structure Clock where
  readings : Nat → Time

/-- The Go call `time.Now()`: the next reading, and the clock after it. -/
def timeNow (c : Clock) : Time × Clock :=
  (c.readings 0, ⟨fun n => c.readings (n + 1)⟩)

/-- A clock that starts at `t0` and advances by `step` on every reading. -/
def Clock.linear (t0 step : Time) : Clock := ⟨fun n => t0 + step * n⟩

/-! ## keys.go -/

def ModuleName : GoString := lit "mychain"

def TokenSupplyKey : List Byte := [0x01]

def UserKeyPrefix : List Byte := [0x02]

def TransactionKeyPrefix : List Byte := [0x03]

def MinerKeyPrefix : List Byte := [0x04]

def BlockInfoKeyPrefix : List Byte := [0x05]

def GetUserKey (address : GoString) : List Byte :=
  goAppend UserKeyPrefix (bytesOf address)

def GetTransactionKey (txHash : GoString) : List Byte :=
  goAppend TransactionKeyPrefix (bytesOf txHash)

def GetMinerKey (address : GoString) : List Byte :=
  goAppend MinerKeyPrefix (bytesOf address)

/-- The loop `for i := 0; i < 8; i++ { heightBytes[i] = byte(height >> (8 * (7 - i))) }`,
started at index `i` on the buffer `buf`; `fuel` bounds the number of iterations. -/
def heightLoop (height : Int) : Nat → Nat → List Byte → List Byte
  | 0, _, buf => buf
  | fuel + 1, i, buf =>
    if i < 8 then
      heightLoop height fuel (i + 1) (buf.set i (byte (height >>> (8 * (7 - i)))))
    else buf

def GetBlockInfoKey (height : Int) : List Byte :=
  let heightBytes := heightLoop height 8 0 (makeBytes 8)
  goAppend BlockInfoKeyPrefix heightBytes

/-- The five kinds of record kept in the store, each with the input of its key constructor. -/
inductive KeyInput where
  | tokenSupply
  | user (address : GoString)
  | transaction (txHash : GoString)
  | miner (address : GoString)
  | blockInfo (height : Int)

/-- The entity kind of a key input, as the number of its reserved prefix. -/
def KeyInput.kind : KeyInput → Nat
  | .tokenSupply => 1
  | .user _ => 2
  | .transaction _ => 3
  | .miner _ => 4
  | .blockInfo _ => 5

/-- The storage key of a key input, through the constructor of its kind. -/
def KeyInput.key : KeyInput → List Byte
  | .tokenSupply => TokenSupplyKey
  | .user address => GetUserKey address
  | .transaction txHash => GetTransactionKey txHash
  | .miner address => GetMinerKey address
  | .blockInfo height => GetBlockInfoKey height

/-- Fixed-width big-endian encoding, as the specification words it: the `width` low base-256
digits of `v`, most significant first. -/
def bigEndianEncode : Nat → Nat → List Byte
  | 0, _ => []
  | w + 1, v => bigEndianEncode w (v / 256) ++ [Fin.ofNat (v % 256)]

/-- The number a byte string denotes when read big-endian. -/
def bigEndianValue : List Byte → Nat
  | [] => 0
  | b :: bs => b.val * 256 ^ bs.length + bigEndianValue bs

/-! ## cosmos-sdk value types used by types.go -/

/-- The library call `sdk.NewInt(n)`: an arbitrary-precision integer. -/
def NewInt (n : Int) : Int := n

/-- The library type `sdk.Coin`: an amount of one denomination. -/
structure Coin where
  Denom : GoString
  Amount : Int
deriving DecidableEq

/-- The library type `sdk.Coins`: a slice of coins. -/
abbrev Coins := List Coin

/-- The character class `[a-zA-Z]`. -/
def isLetter (b : Byte) : Bool :=
  (65 ≤ b.val && b.val ≤ 90) || (97 ≤ b.val && b.val ≤ 122)

/-- The character class `[a-zA-Z0-9/:._-]`. -/
def isDenomChar (b : Byte) : Bool :=
  isLetter b || (48 ≤ b.val && b.val ≤ 57) ||
    b.val == 47 || b.val == 58 || b.val == 46 || b.val == 95 || b.val == 45

/-- The library call `sdk.ValidateDenom(denom) == nil`: the denomination matches
`[a-zA-Z][a-zA-Z0-9/:._-]{2,127}`. -/
def ValidateDenom (denom : GoString) : Bool :=
  match denom.data with
  | [] => false
  | c :: rest => isLetter c && decide (2 ≤ rest.length) && decide (rest.length ≤ 127) &&
      rest.all isDenomChar

/-- The library call `coin.Validate() == nil`: valid denomination, amount not negative. -/
def Coin.Validate (coin : Coin) : Bool :=
  ValidateDenom coin.Denom && !decide (coin.Amount < 0)

/-- The library call `sdk.NewCoin(denom, amount)`, which panics on an invalid coin. -/
def NewCoin (denom : GoString) (amount : Int) : Option Coin :=
  let coin : Coin := { Denom := denom, Amount := amount }
  if coin.Validate then some coin else none

/-- The loop of `Coins.Validate` over the coins after the first: each denomination is valid,
strictly greater than the one before it (hence not seen before), and its amount is positive. -/
def validateRest : GoString → List Coin → Bool
  | _, [] => true
  | lowDenom, coin :: rest =>
    ValidateDenom coin.Denom && decide (lowDenom.data < coin.Denom.data) &&
      decide (0 < coin.Amount) && validateRest coin.Denom rest

/-- The library call `coins.IsValid()`, that is `coins.Validate() == nil`: the empty set is
valid; otherwise every denomination is valid, the denominations are strictly increasing and
every amount is strictly positive. -/
def Coins.IsValid (coins : Coins) : Bool :=
  match coins with
  | [] => true
  | first :: rest =>
    ValidateDenom first.Denom && decide (0 < first.Amount) && validateRest first.Denom rest

/-- The library call `sdk.NewCoins(coins...)`: drops the zero coins, sorts by denomination
and panics when the result is not a valid set. -/
def NewCoins (coins : List Coin) : Option Coins :=
  let newCoins := (coins.filter (fun c => c.Amount != 0)).insertionSort
    (fun a b => a.Denom.data ≤ b.Denom.data)
  if Coins.IsValid newCoins then some newCoins else none

/-- The library type `sdk.Dec`: a fixed-point decimal with 18 fractional digits, held as the
integer `i` that is the value times `10^18`. -/
structure Dec where
  i : Int
deriving DecidableEq

/-- The number of fractional digits of a `Dec`. -/
def Precision : Nat := 18

/-- The rational number a `Dec` denotes. -/
def Dec.toRat (d : Dec) : ℚ := (d.i : ℚ) / 10 ^ Precision

/-- The library call `sdk.OneDec()`. -/
def OneDec : Dec := ⟨10 ^ Precision⟩

/-- The library call `sdk.NewDecWithPrec(i, prec)`: the decimal `i * 10^(-prec)`; it panics
when `prec` is outside `0..18`. -/
def NewDecWithPrec (i prec : Int) : Option Dec :=
  if 0 ≤ prec ∧ prec ≤ Precision then some ⟨i * 10 ^ (Precision - prec.toNat)⟩ else none

/-- The library call `d.IsNegative()`. -/
def Dec.IsNegative (d : Dec) : Bool := decide (d.i < 0)

/-- The library call `d.GT(d2)`. -/
def Dec.GT (d d2 : Dec) : Bool := decide (d.i > d2.i)

/-- An argument of a format verb. -/
inductive FmtArg where
  | coins (c : Coins)
  | dec (d : Dec)
deriving DecidableEq

/-- A Go `error` made by `fmt.Errorf`: the format string and its arguments. -/
structure GoError where
  format : String
  args : List FmtArg
deriving DecidableEq

/-- The Go call `fmt.Errorf(format, args...)`. -/
def Errorf (format : String) (args : List FmtArg) : GoError := ⟨format, args⟩

/-! ## types.go -/

structure User where
  Address : GoString
  Name : GoString
  Email : GoString
  Balance : Coins
  CreatedAt : Time
deriving DecidableEq

def NewUser (address name email : GoString) (clk : Clock) : Option (User × Clock) :=
  match NewCoins [] with
  | none => none
  | some balance =>
    let (now, clk1) := timeNow clk
    some ({ Address := address, Name := name, Email := email, Balance := balance,
            CreatedAt := now }, clk1)

structure Transaction where
  Hash : GoString
  From : GoString
  To : GoString
  Amount : Coins
  Fee : Coins
  BlockHeight : Int
  Timestamp : Time
  Status : GoString
deriving DecidableEq

def NewTransaction (hash from_ to_ : GoString) (amount fee : Coins) (blockHeight : Int)
    (clk : Clock) : Transaction × Clock :=
  let (now, clk1) := timeNow clk
  ({ Hash := hash, From := from_, To := to_, Amount := amount, Fee := fee,
     BlockHeight := blockHeight, Timestamp := now, Status := lit "confirmed" }, clk1)

structure Miner where
  Address : GoString
  Description : GoString
  Commission : Dec
  TotalRewards : Coins
  BlocksMined : Int
  Status : GoString
  RegisteredAt : Time
  LastActiveAt : Time
deriving DecidableEq

def NewMiner (address description : GoString) (commission : Dec) (clk : Clock) :
    Option (Miner × Clock) :=
  match NewCoins [] with
  | none => none
  | some totalRewards =>
    let (registeredAt, clk1) := timeNow clk
    let (lastActiveAt, clk2) := timeNow clk1
    some ({ Address := address, Description := description, Commission := commission,
            TotalRewards := totalRewards, BlocksMined := 0, Status := lit "active",
            RegisteredAt := registeredAt, LastActiveAt := lastActiveAt }, clk2)

structure BlockInfo where
  Height : Int
  Hash : GoString
  PrevHash : GoString
  Timestamp : Time
  Miner : GoString
  TxCount : Int
  TotalFees : Coins
  Reward : Coins
  Size : Int
  GasUsed : Int
  GasLimit : Int
deriving DecidableEq

def NewBlockInfo (height : Int) (hash prevHash miner : GoString) (txCount : Int)
    (clk : Clock) : Option (BlockInfo × Clock) :=
  let (now, clk1) := timeNow clk
  match NewCoins [] with
  | none => none
  | some totalFees =>
    match (NewCoin (lit "mychain") (NewInt 100)).bind (fun c => NewCoins [c]) with
    | none => none
    | some reward =>
      some ({ Height := height, Hash := hash, PrevHash := prevHash, Timestamp := now,
              Miner := miner, TxCount := txCount, TotalFees := totalFees, Reward := reward,
              Size := 0, GasUsed := 0, GasLimit := 10000000 }, clk1)

structure TokenSupply where
  TotalSupply : Coins
  CirculatingSupply : Coins
  MaxSupply : Coins
  MintedToday : Coins
  LastMintTime : Time
deriving DecidableEq

def NewTokenSupply (clk : Clock) : Option (TokenSupply × Clock) :=
  match (NewCoin (lit "mychain") (NewInt 1000000000)).bind (fun c => NewCoins [c]) with
  | none => none
  | some maxSupply =>
    match NewCoins [], NewCoins [], NewCoins [] with
    | some totalSupply, some circulatingSupply, some mintedToday =>
      let (now, clk1) := timeNow clk
      some ({ TotalSupply := totalSupply, CirculatingSupply := circulatingSupply,
              MaxSupply := maxSupply, MintedToday := mintedToday, LastMintTime := now }, clk1)
    | _, _, _ => none

structure Params where
  MaxSupply : Coins
  MiningReward : Coins
  TransactionFee : Coins
  MinCommission : Dec
  MaxCommission : Dec
  BlockTime : Int
  MaxValidators : Int
deriving DecidableEq

def DefaultParams : Option Params :=
  match (NewCoin (lit "mychain") (NewInt 1000000000)).bind (fun c => NewCoins [c]),
        (NewCoin (lit "mychain") (NewInt 100)).bind (fun c => NewCoins [c]),
        (NewCoin (lit "mychain") (NewInt 1)).bind (fun c => NewCoins [c]),
        NewDecWithPrec 0 2, NewDecWithPrec 20 2 with
  | some maxSupply, some miningReward, some transactionFee, some minCommission,
    some maxCommission =>
    some { MaxSupply := maxSupply, MiningReward := miningReward,
           TransactionFee := transactionFee, MinCommission := minCommission,
           MaxCommission := maxCommission, BlockTime := 6, MaxValidators := 100 }
  | _, _, _, _, _ => none

/-- The method `Params.Validate`; `none` is the `nil` error. -/
def Params.Validate (p : Params) : Option GoError :=
  if !p.MaxSupply.IsValid then
    some (Errorf "invalid max supply: %s" [.coins p.MaxSupply])
  else if !p.MiningReward.IsValid then
    some (Errorf "invalid mining reward: %s" [.coins p.MiningReward])
  else if !p.TransactionFee.IsValid then
    some (Errorf "invalid transaction fee: %s" [.coins p.TransactionFee])
  else if p.MinCommission.IsNegative || p.MinCommission.GT OneDec then
    some (Errorf "invalid min commission: %s" [.dec p.MinCommission])
  else if p.MaxCommission.IsNegative || p.MaxCommission.GT OneDec then
    some (Errorf "invalid max commission: %s" [.dec p.MaxCommission])
  else if p.MinCommission.GT p.MaxCommission then
    some (Errorf "min commission cannot be greater than max commission" [])
  else if p.BlockTime ≤ 0 then
    some (Errorf "block time must be positive" [])
  else if p.MaxValidators ≤ 0 then
    some (Errorf "max validators must be positive" [])
  else none

structure GenesisState where
  Params : Params
  Users : List User
  Miners : List Miner
  Transactions : List Transaction
  TokenSupply : TokenSupply
deriving DecidableEq

def DefaultGenesis (clk : Clock) : Option (GenesisState × Clock) :=
  match DefaultParams with
  | none => none
  | some params =>
    match NewTokenSupply clk with
    | none => none
    | some (tokenSupply, clk1) =>
      some ({ Params := params, Users := [], Miners := [], Transactions := [],
              TokenSupply := tokenSupply }, clk1)

/-- The method `GenesisState.Validate`; `none` is the `nil` error. -/
def GenesisState.Validate (gs : GenesisState) : Option GoError :=
  match gs.Params.Validate with
  | some err => some err
  | none => none

/-! ## app.go -/

/-- A Go `map[string]json.RawMessage`, as the list of its entries. -/
abbrev GenesisMap := List (GoString × List Byte)

/-- The part of `MyChainApp` that `InitChainer` reads: the codec `appCodec` and the method
`InitGenesis` of the module manager `mm` (`none` is a panic). -/
structure MyChainApp (Ctx Codec Res : Type) where
  appCodec : Codec
  mmInitGenesis : Ctx → Codec → GenesisMap → Option Res

/-- The method `MyChainApp.InitChainer`; `none` is a panic. The library call
`json.Unmarshal(data, &genesisState)` on the nil map is the parameter `jsonUnmarshal`, which
gives the decoded map or an error. -/
def InitChainer {Ctx Codec Res Req Err : Type}
    (jsonUnmarshal : List Byte → Except Err GenesisMap)
    (app : MyChainApp Ctx Codec Res) (ctx : Ctx) (_req : Req) : Option Res :=
  match jsonUnmarshal (bytesOf (lit "\x7b\x7d")) with
  | .error _ => none
  | .ok genesisState => app.mmInitGenesis ctx app.appCodec genesisState

/-! ## Specification-side definitions -/

/-- The result of running checks in order, as the specification words it: the error of the
first check that fails, and no error when every check passes. -/
def firstFailingCheck (checks : List (Bool × GoError)) : Option GoError :=
  (checks.find? (fun c => !c.1)).map (fun c => c.2)

/-- The eight checks of the parameter set in the order the specification lists them, each
with the error it reports. -/
def paramsChecks (p : Params) : List (Bool × GoError) :=
  [ (p.MaxSupply.IsValid, Errorf "invalid max supply: %s" [.coins p.MaxSupply]),
    (p.MiningReward.IsValid, Errorf "invalid mining reward: %s" [.coins p.MiningReward]),
    (p.TransactionFee.IsValid, Errorf "invalid transaction fee: %s" [.coins p.TransactionFee]),
    (decide (0 ≤ p.MinCommission.toRat ∧ p.MinCommission.toRat ≤ 1),
      Errorf "invalid min commission: %s" [.dec p.MinCommission]),
    (decide (0 ≤ p.MaxCommission.toRat ∧ p.MaxCommission.toRat ≤ 1),
      Errorf "invalid max commission: %s" [.dec p.MaxCommission]),
    (decide (p.MinCommission.toRat ≤ p.MaxCommission.toRat),
      Errorf "min commission cannot be greater than max commission" []),
    (decide (0 < p.BlockTime), Errorf "block time must be positive" []),
    (decide (0 < p.MaxValidators), Errorf "max validators must be positive" []) ]

/-- The Miner invariant of the data model: the commission lies between the minimum and the
maximum commission of the parameter set. -/
def Miner.CommissionInRange (p : Params) (m : Miner) : Prop :=
  p.MinCommission.toRat ≤ m.Commission.toRat ∧ m.Commission.toRat ≤ p.MaxCommission.toRat

instance instDecidableCommissionInRange (p : Params) (m : Miner) :
    Decidable (Miner.CommissionInRange p m) := by
  unfold Miner.CommissionInRange; infer_instance

/-- The amount of one denomination in a coin set. -/
def Coins.AmountOf (coins : Coins) (denom : GoString) : Int :=
  ((coins.filter (fun c => c.Denom = denom)).map (fun c => c.Amount)).sum

/-- The order of the data model on coin sets: at most as much of every denomination. -/
def Coins.LE (a b : Coins) : Prop := ∀ denom : GoString, a.AmountOf denom ≤ b.AmountOf denom

/-- The TokenSupply invariants of the data model: total supply at most max supply, and
circulating supply at most total supply. -/
def TokenSupply.Invariant (s : TokenSupply) : Prop :=
  Coins.LE s.TotalSupply s.MaxSupply ∧ Coins.LE s.CirculatingSupply s.TotalSupply

/-- Reading a block-info key back: the bytes after the prefix, read big-endian as a 64-bit
two's-complement integer. -/
def decodeHeight (key : List Byte) : Int :=
  let v : Int := bigEndianValue (key.drop 1)
  if v < 2 ^ 63 then v else v - 2 ^ 64

/-- Reading a user, transaction or miner key back: the string after the prefix byte. -/
def decodeString (key : List Byte) : GoString := ⟨key.drop 1⟩

/-- JSON white space. -/
def isJsonSpace (b : Byte) : Bool :=
  b.val == 0x20 || b.val == 0x09 || b.val == 0x0a || b.val == 0x0d

/-- A JSON decoder for objects without members: white space, an opening brace, white space,
a closing brace and white space decode to the empty map; it reports any other text as an
error. -/
def decodeMemberlessObject (data : List Byte) : Except String GenesisMap :=
  match data.dropWhile isJsonSpace with
  | b :: rest =>
    if b.val == 0x7b then
      match rest.dropWhile isJsonSpace with
      | c :: tail =>
        if c.val == 0x7d && (tail.dropWhile isJsonSpace).isEmpty then .ok []
        else .error "members are not supported"
      | [] => .error "unexpected end of JSON input"
    else .error "not an object"
  | [] => .error "unexpected end of JSON input"

/-! ## Storage keys: lemmas -/

theorem GetBlockInfoKey_unfold (h : Int) :
    GetBlockInfoKey h = [5, byte (h >>> (56 : Nat)), byte (h >>> (48 : Nat)),
      byte (h >>> (40 : Nat)), byte (h >>> (32 : Nat)), byte (h >>> (24 : Nat)),
      byte (h >>> (16 : Nat)), byte (h >>> (8 : Nat)), byte (h >>> (0 : Nat))] := by
  simp [GetBlockInfoKey, heightLoop, makeBytes, goAppend, BlockInfoKeyPrefix]

theorem GetBlockInfoKey_length (h : Int) : (GetBlockInfoKey h).length = 9 := by
  rw [GetBlockInfoKey_unfold]; rfl

theorem byte_val (x : Int) : ((byte x).val : Int) = x % 256 := by
  simp only [byte]
  omega

theorem byte_shift_val (h : Int) (k : Nat) :
    (((byte (h >>> k)).val : Nat) : Int) = (h / 2 ^ k) % 256 := by
  rw [byte_val, Int.shiftRight_eq_div_pow]
  norm_cast

theorem byte_shift_eq (h : Int) (k : Nat) (n : Nat)
    (hn : (n : Int) % 256 = (h / 2 ^ k) % 256) :
    byte (h >>> k) = Fin.ofNat (n % 256) := by
  apply Fin.ext
  have h1 := byte_shift_val h k
  have h2 : ((Fin.ofNat (n % 256) : Byte).val : Int) = (n : Int) % 256 := by
    simp [Fin.ofNat]
  omega

theorem bigEndianEncode_eight (v : Nat) :
    bigEndianEncode 8 v = [Fin.ofNat (v / 256 / 256 / 256 / 256 / 256 / 256 / 256 % 256),
      Fin.ofNat (v / 256 / 256 / 256 / 256 / 256 / 256 % 256),
      Fin.ofNat (v / 256 / 256 / 256 / 256 / 256 % 256),
      Fin.ofNat (v / 256 / 256 / 256 / 256 % 256),
      Fin.ofNat (v / 256 / 256 / 256 % 256),
      Fin.ofNat (v / 256 / 256 % 256),
      Fin.ofNat (v / 256 % 256),
      Fin.ofNat (v % 256)] := by
  simp [bigEndianEncode]

/-- Read big-endian, the key of a height is the prefix digit followed by `uint64(height)`. -/
theorem bigEndianValue_key (h : Int) :
    bigEndianValue (GetBlockInfoKey h) = 5 * 2 ^ 64 + uint64 h := by
  rw [GetBlockInfoKey_unfold]
  simp only [bigEndianValue, List.length, uint64]
  zify
  simp only [byte_shift_val]
  norm_num
  omega

theorem bigEndianValue_lt (bs : List Byte) : bigEndianValue bs < 256 ^ bs.length := by
  induction bs with
  | nil => simp [bigEndianValue]
  | cons b bs ih =>
    have hb : b.val + 1 ≤ 256 := b.isLt
    have hmul : (b.val + 1) * 256 ^ bs.length ≤ 256 * 256 ^ bs.length :=
      Nat.mul_le_mul_right _ hb
    simp only [bigEndianValue, List.length_cons, pow_succ]
    nlinarith

/-- On byte strings of one length, lexicographic order is the order of the big-endian
values. -/
theorem lex_iff_bigEndianValue_lt :
    ∀ (as bs : List Byte), as.length = bs.length →
      (List.Lex (· < ·) as bs ↔ bigEndianValue as < bigEndianValue bs)
  | [], [], _ => by simp [bigEndianValue]
  | [], _ :: _, h => by simp at h
  | _ :: _, [], h => by simp at h
  | a :: as, b :: bs, h => by
    have hlen : as.length = bs.length := by simpa using h
    have ih := lex_iff_bigEndianValue_lt as bs hlen
    have ha := bigEndianValue_lt as
    have hb := bigEndianValue_lt bs
    rw [hlen] at ha
    simp only [bigEndianValue, hlen]
    generalize 256 ^ bs.length = P at ha hb
    constructor
    · intro hlex
      cases hlex with
      | cons hrest =>
        have := ih.mp hrest
        omega
      | rel hhead =>
        have h1 : a.val + 1 ≤ b.val := hhead
        have : (a.val + 1) * P ≤ b.val * P := Nat.mul_le_mul_right _ h1
        nlinarith
    · intro hlt
      rcases lt_trichotomy a b with hab | hab | hab
      · exact List.Lex.rel hab
      · subst hab
        exact List.Lex.cons (ih.mpr (by omega))
      · exfalso
        have h1 : b.val + 1 ≤ a.val := hab
        have : (b.val + 1) * P ≤ a.val * P := Nat.mul_le_mul_right _ h1
        nlinarith

/-- Two block-info keys compare as the unsigned 64-bit readings of their heights. -/
theorem GetBlockInfoKey_lex_iff (h1 h2 : Int) :
    List.Lex (· < ·) (GetBlockInfoKey h1) (GetBlockInfoKey h2) ↔ uint64 h1 < uint64 h2 := by
  rw [lex_iff_bigEndianValue_lt _ _ (by simp [GetBlockInfoKey_length]),
    bigEndianValue_key, bigEndianValue_key]
  omega

/-- Every storage key starts with the prefix byte of its kind. -/
theorem KeyInput.key_eq_cons (a : KeyInput) :
    ∃ rest, a.key = (Fin.ofNat a.kind : Byte) :: rest := by
  cases a with
  | tokenSupply => exact ⟨[], rfl⟩
  | user address => exact ⟨bytesOf address, rfl⟩
  | transaction txHash => exact ⟨bytesOf txHash, rfl⟩
  | miner address => exact ⟨bytesOf address, rfl⟩
  | blockInfo height =>
    simp only [KeyInput.key, KeyInput.kind]
    rw [GetBlockInfoKey_unfold]
    exact ⟨_, rfl⟩

theorem KeyInput.kind_range (a : KeyInput) : 1 ≤ a.kind ∧ a.kind ≤ 5 := by
  cases a <;> simp [KeyInput.kind]

/-! ## Storage keys: claims -/

/-- C1 (as the specification states it, refuted): the heights -1 and 0 are int64 values with
-1 < 0, yet the key of -1 is not below the key of 0 in lexicographic byte order. -/
theorem blockInfoKey_order_fails_across_sign :
    IsInt64 (-1) ∧ IsInt64 0 ∧ (-1 : Int) < 0 ∧
      ¬ List.Lex (· < ·) (GetBlockInfoKey (-1)) (GetBlockInfoKey 0) := by
  decide

/-- C1 (amended): for int64 heights h1 < h2 of one sign (both non-negative or both negative)
the key of h1 is strictly below the key of h2 in lexicographic byte order. -/
theorem blockInfoKey_order_same_sign (h1 h2 : Int) (r1 : IsInt64 h1) (r2 : IsInt64 h2)
    (hlt : h1 < h2) (hsign : 0 ≤ h1 ∨ h2 < 0) :
    List.Lex (· < ·) (GetBlockInfoKey h1) (GetBlockInfoKey h2) := by
  rw [GetBlockInfoKey_lex_iff]
  unfold IsInt64 at r1 r2
  unfold uint64
  omega

/-- The keys of 255 and 256, and of -2 and -1, are in height order. -/
theorem blockInfoKey_order_same_sign_witness :
    List.Lex (· < ·) (GetBlockInfoKey 255) (GetBlockInfoKey 256) ∧
      List.Lex (· < ·) (GetBlockInfoKey (-2)) (GetBlockInfoKey (-1)) :=
  ⟨blockInfoKey_order_same_sign 255 256 (by decide) (by decide) (by decide) (by decide),
   blockInfoKey_order_same_sign (-2) (-1) (by decide) (by decide) (by decide) (by decide)⟩

/-- C2: the key of a height is nine bytes long, it is the byte 0x05 followed by the
eight-byte big-endian encoding of the height read as an unsigned 64-bit value, and payload
byte i is (height >> 8*(7-i)) mod 256. -/
theorem blockInfoKey_is_big_endian (h : Int) :
    (GetBlockInfoKey h).length = 9 ∧
    GetBlockInfoKey h = 0x05 :: bigEndianEncode 8 (uint64 h) ∧
    (∀ i : Fin 8, (((GetBlockInfoKey h).getD (i.val + 1) 0).val : Int)
        = (h >>> (8 * (7 - i.val))) % 256) := by
  refine ⟨GetBlockInfoKey_length h, ?_, ?_⟩
  · rw [GetBlockInfoKey_unfold, bigEndianEncode_eight]
    simp only [List.cons.injEq, true_and, and_true]
    refine ⟨?_, ?_, ?_, ?_, ?_, ?_, ?_, ?_⟩ <;>
    · apply byte_shift_eq
      simp only [uint64]
      norm_num
      omega
  · intro i
    rw [GetBlockInfoKey_unfold]
    fin_cases i <;> simp [byte_val]

/-- C3: the keys of two inputs of distinct entity kinds are different, and the first is not
a prefix of the second (so, by symmetry, neither is a prefix of the other). -/
theorem key_spaces_disjoint (a b : KeyInput) (hkind : a.kind ≠ b.kind) :
    a.key ≠ b.key ∧ ¬ a.key <+: b.key := by
  obtain ⟨ra, ha⟩ := a.key_eq_cons
  obtain ⟨rb, hb⟩ := b.key_eq_cons
  have hra := a.kind_range
  have hrb := b.kind_range
  have hne : (Fin.ofNat a.kind : Byte) ≠ Fin.ofNat b.kind := by
    intro heq
    have hv := congrArg Fin.val heq
    simp only [Fin.ofNat] at hv
    omega
  have hpre : ¬ a.key <+: b.key := by
    rw [ha, hb]
    intro hp
    rcases hp with ⟨t, ht⟩
    simp only [List.cons_append, List.cons.injEq] at ht
    exact hne ht.1
  exact ⟨fun heq => hpre (heq ▸ List.prefix_refl _), hpre⟩

/-- The user key of the empty address and the block-info key of height 2 are unrelated. -/
theorem key_spaces_disjoint_witness :
    (KeyInput.user (lit "")).key ≠ (KeyInput.blockInfo 2).key ∧
      ¬ (KeyInput.user (lit "")).key <+: (KeyInput.blockInfo 2).key :=
  key_spaces_disjoint (KeyInput.user (lit "")) (KeyInput.blockInfo 2) (by decide)

/-- C4: the user, transaction and miner keys of a string are the prefix byte 0x02, 0x03 and
0x04 followed by the bytes of the string; each has length 1 + len(s), and the key of the
empty string is the one-byte prefix. -/
theorem string_keys_are_prefix_then_bytes (s : GoString) :
    (GetUserKey s = 0x02 :: bytesOf s ∧ GetTransactionKey s = 0x03 :: bytesOf s ∧
      GetMinerKey s = 0x04 :: bytesOf s) ∧
    ((GetUserKey s).length = 1 + s.len ∧ (GetTransactionKey s).length = 1 + s.len ∧
      (GetMinerKey s).length = 1 + s.len) ∧
    (GetUserKey (lit "") = [0x02] ∧ GetTransactionKey (lit "") = [0x03] ∧
      GetMinerKey (lit "") = [0x04]) := by
  refine ⟨⟨rfl, rfl, rfl⟩, ⟨?_, ?_, ?_⟩, ⟨rfl, rfl, rfl⟩⟩ <;>
    simp [GetUserKey, GetTransactionKey, GetMinerKey, goAppend, bytesOf, GoString.len,
      UserKeyPrefix, TransactionKeyPrefix, MinerKeyPrefix, Nat.add_comm]

/-! ## Parameters and genesis: lemmas -/

theorem Dec.IsNegative_iff (d : Dec) : d.IsNegative = true ↔ d.toRat < 0 := by
  have hpos : (0 : ℚ) < 10 ^ Precision := by positivity
  simp only [Dec.IsNegative, Dec.toRat, decide_eq_true_eq]
  rw [div_lt_iff₀ hpos, zero_mul]
  exact Int.cast_lt_zero.symm

theorem Dec.GT_iff (d e : Dec) : d.GT e = true ↔ e.toRat < d.toRat := by
  have hpos : (0 : ℚ) < 10 ^ Precision := by positivity
  simp only [Dec.GT, Dec.toRat, decide_eq_true_eq, gt_iff_lt]
  rw [div_lt_div_iff_of_pos_right hpos]
  exact Int.cast_lt.symm

theorem OneDec_toRat : OneDec.toRat = 1 := by
  norm_num [OneDec, Dec.toRat, Precision]

/-- The commission test of `Validate` on one decimal, read on the number it denotes. -/
theorem Dec.outside_unit_iff (d : Dec) :
    (d.IsNegative || d.GT OneDec) = false ↔ 0 ≤ d.toRat ∧ d.toRat ≤ 1 := by
  rw [Bool.or_eq_false_iff, ← Bool.not_eq_true, ← Bool.not_eq_true, Dec.IsNegative_iff,
    Dec.GT_iff, OneDec_toRat, not_lt, not_lt]

theorem Dec.GT_false_iff (d e : Dec) : d.GT e = false ↔ d.toRat ≤ e.toRat := by
  rw [← Bool.not_eq_true, Dec.GT_iff, not_lt]

/-- When Validate returns nil, the guard comparing the two commissions did not fire. -/
theorem Params.Validate_none_not_GT (p : Params) (hnil : p.Validate = none) :
    p.MinCommission.GT p.MaxCommission = false := by
  unfold Params.Validate at hnil
  cases hgt : p.MinCommission.GT p.MaxCommission with
  | false => rfl
  | true =>
    rw [hgt] at hnil
    split_ifs at hnil with h1 h2 h3 h4 h5 h6
    exact absurd rfl h6

/-! ## Parameters and genesis: claims -/

/-- C5: Params.Validate returns nil exactly when the three coin sets are valid, both
commissions lie in [0, 1], the minimum commission is at most the maximum, the block time is
positive and the validator cap is positive. -/
theorem params_validate_nil_iff (p : Params) :
    p.Validate = none ↔
      (p.MaxSupply.IsValid = true ∧ p.MiningReward.IsValid = true ∧
        p.TransactionFee.IsValid = true ∧
        (0 ≤ p.MinCommission.toRat ∧ p.MinCommission.toRat ≤ 1) ∧
        (0 ≤ p.MaxCommission.toRat ∧ p.MaxCommission.toRat ≤ 1) ∧
        p.MinCommission.toRat ≤ p.MaxCommission.toRat ∧
        0 < p.BlockTime ∧ 0 < p.MaxValidators) := by
  rw [← Dec.outside_unit_iff, ← Dec.outside_unit_iff, ← Dec.GT_false_iff]
  unfold Params.Validate
  cases p.MaxSupply.IsValid <;> cases p.MiningReward.IsValid <;>
    cases p.TransactionFee.IsValid <;>
    cases (p.MinCommission.IsNegative || p.MinCommission.GT OneDec) <;>
    cases (p.MaxCommission.IsNegative || p.MaxCommission.GT OneDec) <;>
    cases p.MinCommission.GT p.MaxCommission <;>
    by_cases hb : p.BlockTime ≤ 0 <;> by_cases hv : p.MaxValidators ≤ 0 <;>
    simp [hb, hv, ← not_le]

/-- C6: Params.Validate returns the error of the first failing check, in the order max
supply, mining reward, transaction fee, min commission in [0, 1], max commission in [0, 1],
min at most max, block time positive, max validators positive, and nil when none fails. A
malformed max supply gives the max-supply error whatever the other fields are; with valid
coin sets, a min commission outside [0, 1] gives the min-commission error, also when it
exceeds the max commission. -/
theorem params_validate_first_failure (p : Params) :
    p.Validate = firstFailingCheck (paramsChecks p) ∧
    (p.MaxSupply.IsValid = false →
      p.Validate = some (Errorf "invalid max supply: %s" [.coins p.MaxSupply])) ∧
    (p.MaxSupply.IsValid = true → p.MiningReward.IsValid = true →
      p.TransactionFee.IsValid = true →
      ¬ (0 ≤ p.MinCommission.toRat ∧ p.MinCommission.toRat ≤ 1) →
      p.Validate = some (Errorf "invalid min commission: %s" [.dec p.MinCommission])) := by
  have hmin := Dec.outside_unit_iff p.MinCommission
  have hmax := Dec.outside_unit_iff p.MaxCommission
  have hgt := Dec.GT_false_iff p.MinCommission p.MaxCommission
  refine ⟨?_, ?_, ?_⟩
  · unfold Params.Validate firstFailingCheck paramsChecks
    simp only [← hmin, ← hmax, ← hgt]
    cases p.MaxSupply.IsValid <;> cases p.MiningReward.IsValid <;>
      cases p.TransactionFee.IsValid <;>
      cases (p.MinCommission.IsNegative || p.MinCommission.GT OneDec) <;>
      cases (p.MaxCommission.IsNegative || p.MaxCommission.GT OneDec) <;>
      cases p.MinCommission.GT p.MaxCommission <;>
      by_cases hb : p.BlockTime ≤ 0 <;> by_cases hv : p.MaxValidators ≤ 0 <;>
      simp [hb, hv, List.find?, ← not_le]
  · intro h1
    simp [Params.Validate, h1]
  · intro h1 h2 h3 h4
    rw [← hmin, Bool.not_eq_false] at h4
    simp [Params.Validate, h1, h2, h3, h4]

/-- Two parameter sets that fail several checks each get the error of the first one only. -/
theorem params_validate_first_failure_witness :
    (({ MaxSupply := [⟨lit "mychain", -1⟩], MiningReward := [⟨lit "", 1⟩],
        TransactionFee := [], MinCommission := ⟨-1⟩, MaxCommission := ⟨-2⟩,
        BlockTime := 0, MaxValidators := 0 } : Params).Validate
      = some (Errorf "invalid max supply: %s" [.coins [⟨lit "mychain", -1⟩]])) ∧
    (({ MaxSupply := [], MiningReward := [], TransactionFee := [],
        MinCommission := ⟨2 * 10 ^ 18⟩, MaxCommission := ⟨10 ^ 18⟩,
        BlockTime := 0, MaxValidators := 0 } : Params).Validate
      = some (Errorf "invalid min commission: %s" [.dec ⟨2 * 10 ^ 18⟩])) :=
  ⟨(params_validate_first_failure _).2.1 (by decide),
   (params_validate_first_failure _).2.2 (by decide) (by decide) (by decide)
     (by norm_num [Dec.toRat, Precision])⟩

/-- C7: a parameter set whose minimum commission exceeds its maximum commission is rejected
by Params.Validate, and so is every genesis state that carries it; the default parameters
with MinCommission = 0.3 and MaxCommission = 0.2 are rejected with the error
"min commission cannot be greater than max commission". -/
theorem min_above_max_is_rejected (p : Params)
    (hgt : p.MaxCommission.toRat < p.MinCommission.toRat) :
    p.Validate ≠ none ∧
    (∀ gs : GenesisState, gs.Params = p → gs.Validate ≠ none) ∧
    ((Dec.toRat ⟨3 * 10 ^ 17⟩ = 3 / 10 ∧ Dec.toRat ⟨2 * 10 ^ 17⟩ = 2 / 10) ∧
      DefaultParams.map (fun d =>
        ({ d with MinCommission := ⟨3 * 10 ^ 17⟩, MaxCommission := ⟨2 * 10 ^ 17⟩ }
          : Params).Validate)
      = some (some (Errorf "min commission cannot be greater than max commission" []))) := by
  have hp : p.Validate ≠ none := by
    intro hnil
    have hle := (Dec.GT_false_iff _ _).mp (Params.Validate_none_not_GT p hnil)
    exact absurd hgt (not_lt.mpr hle)
  refine ⟨hp, ?_, ⟨?_, ?_⟩, ?_⟩
  · intro gs hgs hnil
    apply hp
    unfold GenesisState.Validate at hnil
    rw [hgs] at hnil
    cases hv : p.Validate with
    | none => rfl
    | some err => rw [hv] at hnil; cases hnil
  · norm_num [Dec.toRat, Precision]
  · norm_num [Dec.toRat, Precision]
  · decide

/-- The default parameters with MinCommission = 0.3 and MaxCommission = 0.2, and a genesis
state with these parameters, are rejected. -/
theorem min_above_max_is_rejected_witness :
    ({ MaxSupply := [⟨lit "mychain", 1000000000⟩], MiningReward := [⟨lit "mychain", 100⟩],
       TransactionFee := [⟨lit "mychain", 1⟩], MinCommission := ⟨3 * 10 ^ 17⟩,
       MaxCommission := ⟨2 * 10 ^ 17⟩, BlockTime := 6, MaxValidators := 100 }
      : Params).Validate ≠ none :=
  (min_above_max_is_rejected _ (by norm_num [Dec.toRat, Precision])).1

/-- C8: GenesisState.Validate returns what Params.Validate returns on the genesis
parameters; so genesis states with equal parameters get equal results, and a genesis state
whose parameters are valid is accepted whatever its token supply and also when its user,
miner and transaction lists repeat an entry. -/
theorem genesis_validate_is_params_validate (gs : GenesisState) :
    gs.Validate = gs.Params.Validate ∧
    (∀ gs2 : GenesisState, gs2.Params = gs.Params → gs2.Validate = gs.Validate) ∧
    (gs.Params.Validate = none →
      ∀ (u : User) (m : Miner) (t : Transaction) (supply : TokenSupply),
        ({ gs with Users := [u, u], Miners := [m, m], Transactions := [t, t],
                   TokenSupply := supply } : GenesisState).Validate = none) := by
  have hdel : ∀ g : GenesisState, g.Validate = g.Params.Validate := by
    intro g
    unfold GenesisState.Validate
    cases g.Params.Validate <;> rfl
  refine ⟨hdel gs, ?_, ?_⟩
  · intro gs2 h2
    rw [hdel gs2, hdel gs, h2]
  · intro hnil u m t supply
    rw [hdel]
    exact hnil

/-- A genesis state with valid parameters, two users of one address, two miners of one
address, two transactions of one hash and a total supply of 5 against user balances of 0 is
accepted. -/
theorem genesis_validate_is_params_validate_witness :
    ({ Params := { MaxSupply := [⟨lit "mychain", 1000⟩], MiningReward := [], TransactionFee := [],
                   MinCommission := ⟨0⟩, MaxCommission := ⟨0⟩, BlockTime := 1,
                   MaxValidators := 1 },
       Users := [⟨lit "a", lit "", lit "", [], 0⟩, ⟨lit "a", lit "", lit "", [], 0⟩],
       Miners := [⟨lit "m", lit "", ⟨0⟩, [], 0, lit "active", 0, 0⟩,
                  ⟨lit "m", lit "", ⟨0⟩, [], 0, lit "active", 0, 0⟩],
       Transactions := [⟨lit "h", lit "a", lit "a", [], [], 0, 0, lit "confirmed"⟩,
                        ⟨lit "h", lit "a", lit "a", [], [], 0, 0, lit "confirmed"⟩],
       TokenSupply := ⟨[⟨lit "mychain", 5⟩], [], [⟨lit "mychain", 1000⟩], [], 0⟩ }
      : GenesisState).Validate = none :=
  (genesis_validate_is_params_validate
    { Params := { MaxSupply := [⟨lit "mychain", 1000⟩], MiningReward := [],
                  TransactionFee := [], MinCommission := ⟨0⟩, MaxCommission := ⟨0⟩,
                  BlockTime := 1, MaxValidators := 1 },
      Users := [], Miners := [], Transactions := [],
      TokenSupply := ⟨[], [], [], [], 0⟩ }).2.2 (by decide)
    ⟨lit "a", lit "", lit "", [], 0⟩ ⟨lit "m", lit "", ⟨0⟩, [], 0, lit "active", 0, 0⟩
    ⟨lit "h", lit "a", lit "a", [], [], 0, 0, lit "confirmed"⟩
    ⟨[⟨lit "mychain", 5⟩], [], [⟨lit "mychain", 1000⟩], [], 0⟩

/-- C9: DefaultParams returns the reference configuration: max supply 1,000,000,000
"mychain", mining reward 100 "mychain", transaction fee 1 "mychain", minimum commission 0,
maximum commission 0.20, block time 6 and 100 validators at most. -/
theorem defaultParams_is_reference_configuration :
    DefaultParams = some
      { MaxSupply := [⟨lit "mychain", 1000000000⟩], MiningReward := [⟨lit "mychain", 100⟩],
        TransactionFee := [⟨lit "mychain", 1⟩], MinCommission := ⟨0⟩,
        MaxCommission := ⟨2 * 10 ^ 17⟩, BlockTime := 6, MaxValidators := 100 } ∧
    DefaultParams.map (fun p => (p.MinCommission.toRat, p.MaxCommission.toRat))
      = some (0, 20 / 100) := by
  have h : DefaultParams = some
      { MaxSupply := [⟨lit "mychain", 1000000000⟩], MiningReward := [⟨lit "mychain", 100⟩],
        TransactionFee := [⟨lit "mychain", 1⟩], MinCommission := ⟨0⟩,
        MaxCommission := ⟨2 * 10 ^ 17⟩, BlockTime := 6, MaxValidators := 100 } := by
    decide
  refine ⟨h, ?_⟩
  rw [h]
  norm_num [Dec.toRat, Precision]

/-- The commission a new miner carries: NewMiner always returns, and the record holds the
commission it was given. -/
theorem NewMiner_commission (address description : GoString) (c : Dec) (clk : Clock) :
    (NewMiner address description c clk).map (fun r => r.1.Commission) = some c := by
  rfl

/-- C10 (as the specification states it, refuted): under the default parameters, whose
commission range is [0, 0.20], NewMiner with commission 0.5 is not rejected: it returns a
Miner of commission 0.5, outside the range. -/
theorem newMiner_returns_commission_outside_range :
    (NewMiner (lit "m1") (lit "") ⟨5 * 10 ^ 17⟩ (Clock.linear 0 1)).map
        (fun r => r.1.Commission.toRat) = some (5 / 10) ∧
    DefaultParams.map (fun p => (p.MinCommission.toRat, p.MaxCommission.toRat))
      = some (0, 20 / 100) ∧
    DefaultParams.bind (fun p =>
      (NewMiner (lit "m1") (lit "") ⟨5 * 10 ^ 17⟩ (Clock.linear 0 1)).map
        (fun r => decide (Miner.CommissionInRange p r.1))) = some false := by
  have h : DefaultParams = some
      { MaxSupply := [⟨lit "mychain", 1000000000⟩], MiningReward := [⟨lit "mychain", 100⟩],
        TransactionFee := [⟨lit "mychain", 1⟩], MinCommission := ⟨0⟩,
        MaxCommission := ⟨2 * 10 ^ 17⟩, BlockTime := 6, MaxValidators := 100 } := by
    decide
  have hm : ∀ (f : Miner × Clock → ℚ),
      (NewMiner (lit "m1") (lit "") ⟨5 * 10 ^ 17⟩ (Clock.linear 0 1)).map f
        = some (f ({ Address := lit "m1", Description := lit "", Commission := ⟨5 * 10 ^ 17⟩,
                     TotalRewards := [], BlocksMined := 0, Status := lit "active",
                     RegisteredAt := 0, LastActiveAt := 1 },
                   timeNow (timeNow (Clock.linear 0 1)).2 |>.2)) := by
    intro f
    rfl
  refine ⟨?_, ?_, ?_⟩
  · rw [hm]
    norm_num [Dec.toRat, Precision]
  · rw [h]
    norm_num [Dec.toRat, Precision]
  · rw [h]
    simp only [Option.some_bind]
    have hm2 := NewMiner_commission (lit "m1") (lit "") ⟨5 * 10 ^ 17⟩ (Clock.linear 0 1)
    cases hnew : NewMiner (lit "m1") (lit "") ⟨5 * 10 ^ 17⟩ (Clock.linear 0 1) with
    | none => rw [hnew] at hm2; cases hm2
    | some r =>
      rw [hnew] at hm2
      simp only [Option.map_some', Option.some.injEq] at hm2
      simp only [Option.map_some', Option.some.injEq, decide_eq_false_iff_not,
        Miner.CommissionInRange, hm2]
      norm_num [Dec.toRat, Precision]

/-- C10 (amended): NewMiner makes no range check. For every address, description,
commission c and clock it returns a Miner that carries c unchanged, so the commission of the
returned Miner lies in [MinCommission, MaxCommission] of a parameter set exactly when c
does; under the default range [0, 0.20] the Miner made with commission 0.1 satisfies the
bound. NewUser returns a user whose balance is the empty, valid coin set. -/
theorem newMiner_commission_in_range_iff (address description : GoString) (c : Dec)
    (clk : Clock) :
    (NewMiner address description c clk).map (fun r => r.1.Commission) = some c ∧
    (∀ p : Params,
      (NewMiner address description c clk).map
          (fun r => decide (Miner.CommissionInRange p r.1))
        = some (decide (p.MinCommission.toRat ≤ c.toRat ∧ c.toRat ≤ p.MaxCommission.toRat))) ∧
    DefaultParams.bind (fun p =>
      (NewMiner address description ⟨10 ^ 17⟩ clk).map
        (fun r => (r.1.Commission.toRat, decide (Miner.CommissionInRange p r.1))))
      = some (1 / 10, true) ∧
    (∀ name email : GoString,
      (NewUser address name email clk).map (fun r => (r.1.Balance, r.1.Balance.IsValid))
        = some ([], true)) := by
  have h : DefaultParams = some
      { MaxSupply := [⟨lit "mychain", 1000000000⟩], MiningReward := [⟨lit "mychain", 100⟩],
        TransactionFee := [⟨lit "mychain", 1⟩], MinCommission := ⟨0⟩,
        MaxCommission := ⟨2 * 10 ^ 17⟩, BlockTime := 6, MaxValidators := 100 } := by
    decide
  have hnew : ∀ d : Dec, ∃ r, NewMiner address description d clk = some r ∧
      r.1.Commission = d := by
    intro d
    exact ⟨_, rfl, rfl⟩
  refine ⟨NewMiner_commission address description c clk, ?_, ?_, ?_⟩
  · intro p
    obtain ⟨r, hr, hc⟩ := hnew c
    rw [hr]
    show some (decide (Miner.CommissionInRange p r.1)) = _
    simp only [Miner.CommissionInRange, hc]
  · obtain ⟨r, hr, hc⟩ := hnew ⟨10 ^ 17⟩
    rw [h, hr]
    simp only [Option.some_bind, Option.map_some', Miner.CommissionInRange, hc,
      Option.some.injEq, Prod.mk.injEq, decide_eq_true_eq]
    norm_num [Dec.toRat, Precision]
  · intro name email
    rfl

/-! ## Record constructors: lemmas -/

theorem NewCoins_nil : NewCoins [] = some [] := by decide

theorem NewCoins_mychain_reward :
    (NewCoin (lit "mychain") (NewInt 100)).bind (fun c => NewCoins [c])
      = some [⟨lit "mychain", 100⟩] := by
  decide

theorem NewCoins_mychain_cap :
    (NewCoin (lit "mychain") (NewInt 1000000000)).bind (fun c => NewCoins [c])
      = some [⟨lit "mychain", 1000000000⟩] := by
  decide

theorem DefaultParams_eq :
    DefaultParams = some
      { MaxSupply := [⟨lit "mychain", 1000000000⟩], MiningReward := [⟨lit "mychain", 100⟩],
        TransactionFee := [⟨lit "mychain", 1⟩], MinCommission := ⟨0⟩,
        MaxCommission := ⟨2 * 10 ^ 17⟩, BlockTime := 6, MaxValidators := 100 } := by
  decide

theorem NewTokenSupply_eq (clk : Clock) :
    NewTokenSupply clk = some
      ({ TotalSupply := [], CirculatingSupply := [],
         MaxSupply := [⟨lit "mychain", 1000000000⟩], MintedToday := [],
         LastMintTime := (timeNow clk).1 }, (timeNow clk).2) := by
  simp only [NewTokenSupply, NewCoins_mychain_cap, NewCoins_nil]

theorem NewBlockInfo_eq (height : Int) (hash prevHash miner : GoString) (txCount : Int)
    (clk : Clock) :
    NewBlockInfo height hash prevHash miner txCount clk = some
      ({ Height := height, Hash := hash, PrevHash := prevHash, Timestamp := (timeNow clk).1,
         Miner := miner, TxCount := txCount, TotalFees := [],
         Reward := [⟨lit "mychain", 100⟩], Size := 0, GasUsed := 0, GasLimit := 10000000 },
       (timeNow clk).2) := by
  simp only [NewBlockInfo, NewCoins_mychain_reward, NewCoins_nil]

theorem NewUser_eq (address name email : GoString) (clk : Clock) :
    NewUser address name email clk = some
      ({ Address := address, Name := name, Email := email, Balance := [],
         CreatedAt := (timeNow clk).1 }, (timeNow clk).2) := by
  simp only [NewUser, NewCoins_nil]

theorem NewMiner_eq (address description : GoString) (commission : Dec) (clk : Clock) :
    NewMiner address description commission clk = some
      ({ Address := address, Description := description, Commission := commission,
         TotalRewards := [], BlocksMined := 0, Status := lit "active",
         RegisteredAt := (timeNow clk).1, LastActiveAt := (timeNow (timeNow clk).2).1 },
       (timeNow (timeNow clk).2).2) := by
  simp only [NewMiner, NewCoins_nil]

theorem Coins.AmountOf_nil (denom : GoString) : Coins.AmountOf [] denom = 0 := by
  simp [Coins.AmountOf]

/-! ## Record constructors: claims -/

/-- C11: NewTokenSupply returns a record with empty TotalSupply, CirculatingSupply and
MintedToday and with MaxSupply 1,000,000,000 "mychain"; the record satisfies
TotalSupply <= MaxSupply and CirculatingSupply <= TotalSupply. -/
theorem newTokenSupply_is_zero_under_cap (clk : Clock) :
    (NewTokenSupply clk).map (fun r => r.1) = some
      { TotalSupply := [], CirculatingSupply := [],
        MaxSupply := [⟨lit "mychain", 1000000000⟩], MintedToday := [],
        LastMintTime := clk.readings 0 } ∧
    TokenSupply.Invariant
      { TotalSupply := [], CirculatingSupply := [],
        MaxSupply := [⟨lit "mychain", 1000000000⟩], MintedToday := [],
        LastMintTime := clk.readings 0 } := by
  rw [NewTokenSupply_eq]
  refine ⟨rfl, ?_, ?_⟩
  · intro denom
    simp only [Coins.AmountOf_nil]
    by_cases hd : lit "mychain" = denom <;> simp [Coins.AmountOf, hd]
  · intro denom
    exact le_refl _

/-- C12: NewBlockInfo returns a record that carries height, hash, prevHash, miner and
txCount unchanged, with Reward exactly 100 "mychain", empty TotalFees, Size 0, GasUsed 0 and
GasLimit 10,000,000. -/
theorem newBlockInfo_fields (height : Int) (hash prevHash miner : GoString) (txCount : Int)
    (clk : Clock) :
    (NewBlockInfo height hash prevHash miner txCount clk).map (fun r => r.1) = some
      { Height := height, Hash := hash, PrevHash := prevHash, Timestamp := clk.readings 0,
        Miner := miner, TxCount := txCount, TotalFees := [],
        Reward := [⟨lit "mychain", 100⟩], Size := 0, GasUsed := 0, GasLimit := 10000000 } := by
  rw [NewBlockInfo_eq]
  rfl

/-- C13: NewUser returns a User with the given address, name and email and an empty
balance; NewTransaction returns a Transaction with the given hash, from, to, amount, fee
and block height and Status "confirmed"; NewMiner returns a Miner with the given address,
description and commission, Status "active", BlocksMined 0 and empty TotalRewards. -/
theorem constructors_copy_arguments_and_set_defaults (clk : Clock) :
    (∀ address name email : GoString,
      (NewUser address name email clk).map (fun r => r.1) = some
        { Address := address, Name := name, Email := email, Balance := [],
          CreatedAt := clk.readings 0 }) ∧
    (∀ (hash from_ to_ : GoString) (amount fee : Coins) (blockHeight : Int),
      (NewTransaction hash from_ to_ amount fee blockHeight clk).1 =
        { Hash := hash, From := from_, To := to_, Amount := amount, Fee := fee,
          BlockHeight := blockHeight, Timestamp := clk.readings 0,
          Status := lit "confirmed" }) ∧
    (∀ (address description : GoString) (commission : Dec),
      (NewMiner address description commission clk).map (fun r => r.1) = some
        { Address := address, Description := description, Commission := commission,
          TotalRewards := [], BlocksMined := 0, Status := lit "active",
          RegisteredAt := clk.readings 0, LastActiveAt := clk.readings 1 }) := by
  refine ⟨?_, ?_, ?_⟩
  · intro address name email
    rw [NewUser_eq]
    rfl
  · intro hash from_ to_ amount fee blockHeight
    rfl
  · intro address description commission
    rw [NewMiner_eq]
    rfl

/-- C14 (as the specification states it, refuted): on a clock that advances by one between
readings, two successive calls of each constructor with equal arguments return different
records. -/
theorem constructors_depend_on_the_clock :
    (NewUser (lit "a") (lit "n") (lit "e") (Clock.linear 0 1)).bind (fun r1 =>
      (NewUser (lit "a") (lit "n") (lit "e") r1.2).map (fun r2 => decide (r1.1 = r2.1)))
      = some false ∧
    decide ((NewTransaction (lit "h") (lit "a") (lit "b") [] [] 1 (Clock.linear 0 1)).1 =
      (NewTransaction (lit "h") (lit "a") (lit "b") [] [] 1
        (NewTransaction (lit "h") (lit "a") (lit "b") [] [] 1 (Clock.linear 0 1)).2).1)
      = false ∧
    (NewMiner (lit "m") (lit "d") ⟨0⟩ (Clock.linear 0 1)).bind (fun r1 =>
      (NewMiner (lit "m") (lit "d") ⟨0⟩ r1.2).map (fun r2 => decide (r1.1 = r2.1)))
      = some false ∧
    (NewBlockInfo 1 (lit "h") (lit "p") (lit "m") 0 (Clock.linear 0 1)).bind (fun r1 =>
      (NewBlockInfo 1 (lit "h") (lit "p") (lit "m") 0 r1.2).map
        (fun r2 => decide (r1.1 = r2.1))) = some false ∧
    (NewTokenSupply (Clock.linear 0 1)).bind (fun r1 =>
      (NewTokenSupply r1.2).map (fun r2 => decide (r1.1 = r2.1))) = some false := by
  refine ⟨?_, ?_, ?_, ?_, ?_⟩ <;> decide

/-- C14 (amended): the constructors are deterministic up to the timestamp fields. For equal
arguments and any two clocks, the records returned by NewUser, NewTransaction, NewMiner,
NewBlockInfo and NewTokenSupply agree once their timestamp fields are set aside; each
timestamp field holds the reading of the wall clock taken during the call (NewMiner takes
two readings). -/
theorem constructors_deterministic_up_to_timestamps (clkA clkB : Clock) :
    (∀ address name email : GoString,
      (NewUser address name email clkA).map (fun r => { r.1 with CreatedAt := 0 }) =
        (NewUser address name email clkB).map (fun r => { r.1 with CreatedAt := 0 }) ∧
      (NewUser address name email clkA).map (fun r => r.1.CreatedAt)
        = some (clkA.readings 0)) ∧
    (∀ (hash from_ to_ : GoString) (amount fee : Coins) (blockHeight : Int),
      { (NewTransaction hash from_ to_ amount fee blockHeight clkA).1 with Timestamp := 0 } =
        { (NewTransaction hash from_ to_ amount fee blockHeight clkB).1 with Timestamp := 0 } ∧
      (NewTransaction hash from_ to_ amount fee blockHeight clkA).1.Timestamp
        = clkA.readings 0) ∧
    (∀ (address description : GoString) (commission : Dec),
      (NewMiner address description commission clkA).map
          (fun r => { r.1 with RegisteredAt := 0, LastActiveAt := 0 }) =
        (NewMiner address description commission clkB).map
          (fun r => { r.1 with RegisteredAt := 0, LastActiveAt := 0 }) ∧
      (NewMiner address description commission clkA).map
          (fun r => (r.1.RegisteredAt, r.1.LastActiveAt))
        = some (clkA.readings 0, clkA.readings 1)) ∧
    (∀ (height : Int) (hash prevHash miner : GoString) (txCount : Int),
      (NewBlockInfo height hash prevHash miner txCount clkA).map
          (fun r => { r.1 with Timestamp := 0 }) =
        (NewBlockInfo height hash prevHash miner txCount clkB).map
          (fun r => { r.1 with Timestamp := 0 }) ∧
      (NewBlockInfo height hash prevHash miner txCount clkA).map (fun r => r.1.Timestamp)
        = some (clkA.readings 0)) ∧
    ((NewTokenSupply clkA).map (fun r => { r.1 with LastMintTime := 0 }) =
        (NewTokenSupply clkB).map (fun r => { r.1 with LastMintTime := 0 }) ∧
      (NewTokenSupply clkA).map (fun r => r.1.LastMintTime) = some (clkA.readings 0)) := by
  refine ⟨?_, ?_, ?_, ?_, ?_⟩
  · intro address name email
    rw [NewUser_eq, NewUser_eq]
    exact ⟨rfl, rfl⟩
  · intro hash from_ to_ amount fee blockHeight
    exact ⟨rfl, rfl⟩
  · intro address description commission
    rw [NewMiner_eq, NewMiner_eq]
    exact ⟨rfl, rfl⟩
  · intro height hash prevHash miner txCount
    rw [NewBlockInfo_eq, NewBlockInfo_eq]
    exact ⟨rfl, rfl⟩
  · rw [NewTokenSupply_eq, NewTokenSupply_eq]
    exact ⟨rfl, rfl⟩

/-! ## Storage keys: order and injectivity -/

/-- Read big-endian, the payload of the key of a height is `uint64(height)`. -/
theorem bigEndianValue_payload (h : Int) :
    bigEndianValue ((GetBlockInfoKey h).drop 1) = uint64 h := by
  have hkey := bigEndianValue_key h
  have hlen := GetBlockInfoKey_length h
  rw [GetBlockInfoKey_unfold] at hkey hlen ⊢
  simp only [bigEndianValue, List.length, List.drop_succ_cons, List.drop_zero] at hkey ⊢
  norm_num at hkey ⊢
  omega

/-- The height of an int64 key is read back by `decodeHeight`. -/
theorem decodeHeight_key (h : Int) (r : IsInt64 h) : decodeHeight (GetBlockInfoKey h) = h := by
  unfold decodeHeight
  simp only [bigEndianValue_payload]
  unfold IsInt64 at r
  unfold uint64
  split_ifs with hv <;> omega

theorem decodeString_keys (s : GoString) :
    decodeString (GetUserKey s) = s ∧ decodeString (GetTransactionKey s) = s ∧
      decodeString (GetMinerKey s) = s :=
  ⟨rfl, rfl, rfl⟩

/-- C15: for heights h1, h2 with 0 <= h1, h2 <= 2^63 - 1, the key of h1 is below the key of
h2 in lexicographic byte order if and only if h1 < h2. -/
theorem blockInfoKey_order_iff_nonneg (h1 h2 : Int) (l1 : 0 ≤ h1) (u1 : h1 ≤ 2 ^ 63 - 1)
    (l2 : 0 ≤ h2) (u2 : h2 ≤ 2 ^ 63 - 1) :
    List.Lex (· < ·) (GetBlockInfoKey h1) (GetBlockInfoKey h2) ↔ h1 < h2 := by
  rw [GetBlockInfoKey_lex_iff]
  unfold uint64
  omega

/-- The keys of heights 3 and 7 are in height order, and those of 7 and 3 are not. -/
theorem blockInfoKey_order_iff_nonneg_witness :
    List.Lex (· < ·) (GetBlockInfoKey 3) (GetBlockInfoKey 7) ∧
      ¬ List.Lex (· < ·) (GetBlockInfoKey 7) (GetBlockInfoKey 3) :=
  ⟨(blockInfoKey_order_iff_nonneg 3 7 (by decide) (by decide) (by decide) (by decide)).mpr
      (by decide),
   fun hlex =>
    absurd ((blockInfoKey_order_iff_nonneg 7 3 (by decide) (by decide) (by decide)
      (by decide)).mp hlex) (by decide)⟩

/-- C16: every key constructor is injective. Distinct int64 heights, negative ones included,
have distinct block-info keys, and the height is read back from the eight payload bytes as
a big-endian two's-complement integer; distinct strings have distinct user, transaction and
miner keys, and the string is read back by dropping the first byte. -/
theorem key_constructors_injective :
    (∀ h1 h2 : Int, IsInt64 h1 → IsInt64 h2 → h1 ≠ h2 →
      GetBlockInfoKey h1 ≠ GetBlockInfoKey h2) ∧
    (∀ h : Int, IsInt64 h → decodeHeight (GetBlockInfoKey h) = h) ∧
    (∀ s1 s2 : GoString, s1 ≠ s2 →
      GetUserKey s1 ≠ GetUserKey s2 ∧ GetTransactionKey s1 ≠ GetTransactionKey s2 ∧
        GetMinerKey s1 ≠ GetMinerKey s2) ∧
    (∀ s : GoString, decodeString (GetUserKey s) = s ∧
      decodeString (GetTransactionKey s) = s ∧ decodeString (GetMinerKey s) = s) := by
  refine ⟨?_, decodeHeight_key, ?_, decodeString_keys⟩
  · intro h1 h2 r1 r2 hne heq
    apply hne
    rw [← decodeHeight_key h1 r1, ← decodeHeight_key h2 r2, heq]
  · intro s1 s2 hne
    refine ⟨?_, ?_, ?_⟩ <;> intro heq <;> apply hne
    · rw [← (decodeString_keys s1).1, ← (decodeString_keys s2).1, heq]
    · rw [← (decodeString_keys s1).2.1, ← (decodeString_keys s2).2.1, heq]
    · rw [← (decodeString_keys s1).2.2, ← (decodeString_keys s2).2.2, heq]

/-- The keys of the heights -1 and 2^63 - 1 differ and -1 is read back from its key; the
user keys of "a" and "b" differ. -/
theorem key_constructors_injective_witness :
    GetBlockInfoKey (-1) ≠ GetBlockInfoKey (2 ^ 63 - 1) ∧
      decodeHeight (GetBlockInfoKey (-1)) = -1 ∧
      GetUserKey (lit "a") ≠ GetUserKey (lit "b") :=
  ⟨key_constructors_injective.1 (-1) (2 ^ 63 - 1) (by decide) (by decide) (by decide),
   key_constructors_injective.2.1 (-1) (by decide),
   (key_constructors_injective.2.2.1 (lit "a") (lit "b") (by decide)).1⟩

/-! ## Defaults and the chain initialiser -/

theorem DefaultGenesis_eq (clk : Clock) :
    DefaultGenesis clk = some
      ({ Params :=
           { MaxSupply := [⟨lit "mychain", 1000000000⟩],
             MiningReward := [⟨lit "mychain", 100⟩],
             TransactionFee := [⟨lit "mychain", 1⟩], MinCommission := ⟨0⟩,
             MaxCommission := ⟨2 * 10 ^ 17⟩, BlockTime := 6, MaxValidators := 100 },
         Users := [], Miners := [], Transactions := [],
         TokenSupply :=
           { TotalSupply := [], CirculatingSupply := [],
             MaxSupply := [⟨lit "mychain", 1000000000⟩], MintedToday := [],
             LastMintTime := (timeNow clk).1 } }, (timeNow clk).2) := by
  simp only [DefaultGenesis, DefaultParams_eq, NewTokenSupply_eq]

/-- C17: the defaults are valid: DefaultParams().Validate() returns nil, and
DefaultGenesis().Validate() returns nil whatever the clock reads. -/
theorem defaults_are_valid :
    DefaultParams.map Params.Validate = some none ∧
    (∀ clk : Clock, (DefaultGenesis clk).map (fun r => r.1.Validate) = some none) := by
  have hp : ({ MaxSupply := [⟨lit "mychain", 1000000000⟩],
               MiningReward := [⟨lit "mychain", 100⟩],
               TransactionFee := [⟨lit "mychain", 1⟩], MinCommission := ⟨0⟩,
               MaxCommission := ⟨2 * 10 ^ 17⟩, BlockTime := 6, MaxValidators := 100 }
              : Params).Validate = none := by
    decide
  refine ⟨?_, ?_⟩
  · rw [DefaultParams_eq]
    exact congrArg some hp
  · intro clk
    rw [DefaultGenesis_eq]
    simp only [Option.map_some', GenesisState.Validate, hp]

/-- C18: the constants of the constructors agree with the default parameters: the Reward of
NewBlockInfo is the default MiningReward (100 "mychain"), the MaxSupply of NewTokenSupply is
the default MaxSupply (1,000,000,000 "mychain"), and in the default genesis state the
MaxSupply of the token supply equals the MaxSupply of the parameters. -/
theorem constructor_constants_agree_with_defaults (height : Int)
    (hash prevHash miner : GoString) (txCount : Int) (clk : Clock) :
    ((NewBlockInfo height hash prevHash miner txCount clk).map (fun r => r.1.Reward)
        = DefaultParams.map (fun p => p.MiningReward) ∧
      DefaultParams.map (fun p => p.MiningReward) = some [⟨lit "mychain", 100⟩]) ∧
    ((NewTokenSupply clk).map (fun r => r.1.MaxSupply)
        = DefaultParams.map (fun p => p.MaxSupply) ∧
      DefaultParams.map (fun p => p.MaxSupply) = some [⟨lit "mychain", 1000000000⟩]) ∧
    ((DefaultGenesis clk).map (fun r => r.1.TokenSupply.MaxSupply)
        = (DefaultGenesis clk).map (fun r => r.1.Params.MaxSupply) ∧
      (DefaultGenesis clk).map (fun r => r.1.Params.MaxSupply)
        = some [⟨lit "mychain", 1000000000⟩]) := by
  rw [NewBlockInfo_eq, NewTokenSupply_eq, DefaultGenesis_eq, DefaultParams_eq]
  exact ⟨⟨rfl, rfl⟩, ⟨rfl, rfl⟩, ⟨rfl, rfl⟩⟩

/-- C19: InitChainer ignores its request. For every application, context and two requests
(of any types) both calls give the same result; and when the JSON decoder maps the text of
the literal (an opening and a closing brace) to the empty map, the call is the module
manager's InitGenesis on the context, the codec and the empty genesis map, so nothing of the
request reaches the modules. -/
theorem initChainer_ignores_request {Ctx Codec Res Req1 Req2 Err : Type}
    (jsonUnmarshal : List Byte → Except Err GenesisMap) (app : MyChainApp Ctx Codec Res)
    (ctx : Ctx) (req1 : Req1) (req2 : Req2) :
    InitChainer jsonUnmarshal app ctx req1 = InitChainer jsonUnmarshal app ctx req2 ∧
    (jsonUnmarshal (bytesOf (lit "\x7b\x7d")) = .ok [] →
      InitChainer jsonUnmarshal app ctx req1 = app.mmInitGenesis ctx app.appCodec [] ∧
      InitChainer jsonUnmarshal app ctx req2 = app.mmInitGenesis ctx app.appCodec []) := by
  refine ⟨rfl, ?_⟩
  intro hjson
  unfold InitChainer
  rw [hjson]
  exact ⟨rfl, rfl⟩

/-- With the decoder for memberless objects and a module manager that returns the genesis
map it is given, two different requests both yield the empty genesis map. -/
theorem initChainer_ignores_request_witness :
    InitChainer decodeMemberlessObject
        (⟨(), fun _ _ g => some g⟩ : MyChainApp Unit Unit GenesisMap) () (lit "genesis")
      = some [] ∧
    InitChainer decodeMemberlessObject
        (⟨(), fun _ _ g => some g⟩ : MyChainApp Unit Unit GenesisMap) () (7 : Nat)
      = some [] :=
  (initChainer_ignores_request decodeMemberlessObject
    (⟨(), fun _ _ g => some g⟩ : MyChainApp Unit Unit GenesisMap) () (lit "genesis")
    (7 : Nat)).2 rfl

end MyChain
